import Mathlib

/-!
Verification development for the Capturadevideo repository
(`cameo.py`, `filters.py`, `managers.py`, `utils.py`).

The Python sources are shallowly embedded as executable Lean definitions:
pure helpers become Lean functions, NumPy arrays become `List ℕ` or
functions out of index types with rational pixel values, and the stateful
`CaptureManager` becomes explicit state passing over a `CMState` record
together with a trace of externally visible effects (image writes, video
writer construction/release, frame writes).  Wall-clock time, the capture
source's reported frame rate, and the grabbed/retrieved frames are inputs
to each step, mirroring how the Python code consumes them from the
external capture device.
-/

/- ## utils.py -/

/-- Embedding of `filters.createCompositeFunc` (also monkey-patched onto
`utils`): composing with an absent function returns the other argument,
two absent functions give no function, and otherwise the result applies
`func1` first and `func0` second. -/
def createCompositeFunc {α : Type} (func0 func1 : Option (α → α)) : Option (α → α) :=
  match func0 with
  | Option.none => func1
  | some f0 =>
    match func1 with
    | Option.none => some f0
    | some f1 => some (fun x => f0 (f1 x))

/-- Embedding of `utils.applyLookupArray`.  The NumPy statement
`dst[:] = lookupArray[src]` first materialises `lookupArray[src]` from the
source values and then assigns it into `dst`, so the result is a pure
function of the table and the source contents (the prior contents of `dst`
only survive when the table is absent, where the Python code returns
without touching `dst`).  `src` and `dst` are element lists of equal
length; the lookup table is total on indices. -/
def applyLookupArray (lookupArray : Option (ℕ → ℕ)) (src dst : List ℕ) : List ℕ :=
  match lookupArray with
  | Option.none => dst
  | some table => src.map table

/- ## utils.createCurveFunc -/

/-- Interpolation kind selected by `createCurveFunc` when calling
`scipy.interpolate.interp1d`. -/
inductive InterpKind where
  | linear
  | cubic
deriving DecidableEq, Repr

/-- Model of a constructed `scipy.interpolate.interp1d` object: the data
arrays, the interpolation kind, and the out-of-range policy flags that the
repository passes (`bounds_error=False`, `fill_value="extrapolate"`). -/
structure Interp1d where
  xs : List ℚ
  ys : List ℚ
  kind : InterpKind
  boundsError : Bool
  extrapolate : Bool
deriving DecidableEq, Repr

/-- Value on one linear segment through `(x0, y0)` and `(x1, y1)`. -/
def segValue (x0 y0 x1 y1 x : ℚ) : ℚ :=
  y0 + (y1 - y0) * (x - x0) / (x1 - x0)

/-- Piecewise evaluation over consecutive control-point segments, extended
past both ends by the outermost segments (the behaviour of
`fill_value="extrapolate"`). -/
def piecewiseInterp : List ℚ → List ℚ → ℚ → ℚ
  | x0 :: x1 :: xs, y0 :: y1 :: ys, x =>
    if xs.isEmpty ∨ x ≤ x1 then segValue x0 y0 x1 y1 x
    else piecewiseInterp (x1 :: xs) (y1 :: ys) x
  | _, _, _ => 0

/-- Model of evaluating a `scipy.interpolate.interp1d` object, from
scipy's documented interface: with `bounds_error` set, evaluation outside
the data range raises (modelled as `Except.error`); with it unset and
`fill_value="extrapolate"` evaluation is total.  The numeric kernel for
both kinds is modelled by the piecewise rule above — the cubic spline's
coefficients live in scipy, outside this repository, and no claim settled
here depends on the cubic values, only on kind selection and on
totality/extrapolation. -/
def Interp1d.eval (f : Interp1d) (x : ℚ) : Except String ℚ :=
  let lo := f.xs.headD 0
  let hi := f.xs.getLastD 0
  if f.boundsError ∧ (x < lo ∨ hi < x) then Except.error "A value in x_new is out of range"
  else Except.ok (piecewiseInterp f.xs f.ys x)

/-- Embedding of `utils.createCurveFunc`: `None` points or fewer than two
points yield no function; otherwise an `interp1d` with cubic kind for four
or more points and linear otherwise, constructed with `bounds_error=False`
and `fill_value="extrapolate"`. -/
def createCurveFunc (points : Option (List (ℚ × ℚ))) : Option Interp1d :=
  match points with
  | Option.none => Option.none
  | some pts =>
    if pts.length < 2 then Option.none
    else
      some { xs := pts.map Prod.fst
             ys := pts.map Prod.snd
             kind := if 4 ≤ pts.length then InterpKind.cubic else InterpKind.linear
             boundsError := false
             extrapolate := true }

/- ## filters.py: fixed-kernel convolution filters -/

/-- Reflect-101 border index mapping used by `cv2.filter2D` under its
default border mode: indices are reflected about the edge pixels, with
period `2n - 2`; a single row/column degenerates to index 0. -/
def reflect101 (n : ℕ) (i : ℤ) : ℕ :=
  if n ≤ 1 then 0
  else
    let p := (i % (2 * (n : ℤ) - 2)).toNat
    if p < n then p else 2 * n - 2 - p

/-- Correlation of a kernel with an image at one pixel, anchor at the
kernel centre, borders handled by `reflect101`; this is the per-pixel
semantics of `cv2.filter2D(src, -1, kernel, dst)` before saturation.
Images are functions from row/column indices to a channel value; the
output lives on the same index space, so it has the same size as the
input by construction. -/
def convAt (kernel : List (List ℚ)) (h w : ℕ) (img : ℕ → ℕ → ℚ) (y x : ℕ) : ℚ :=
  let kh := kernel.length
  let kw := (kernel.headD []).length
  ((List.range kh).map (fun i =>
    ((List.range kw).map (fun j =>
      ((kernel.getD i []).getD j 0) *
        img (reflect101 h ((y : ℤ) + i - (kh / 2 : ℕ)))
            (reflect101 w ((x : ℤ) + j - (kw / 2 : ℕ))))).sum)).sum

/-- Embedding of `filters.VConvolutionFilter`: a filter holding a
convolution kernel. -/
structure VConvolutionFilter where
  kernel : List (List ℚ)

/-- Embedding of `VConvolutionFilter.apply`: run the kernel over the whole
image via `cv2.filter2D`. -/
def VConvolutionFilter.apply (fl : VConvolutionFilter) (h w : ℕ)
    (src : ℕ → ℕ → ℚ) : ℕ → ℕ → ℚ :=
  fun y x => convAt fl.kernel h w src y x

/-- Embedding of `filters.SharpenFilter` (kernel from its constructor). -/
def sharpenFilter : VConvolutionFilter :=
  ⟨[[-1, -1, -1], [-1, 9, -1], [-1, -1, -1]]⟩

/-- Embedding of `filters.FindEdgesFilter` (kernel from its constructor). -/
def findEdgesFilter : VConvolutionFilter :=
  ⟨[[-1, -1, -1], [-1, 8, -1], [-1, -1, -1]]⟩

/-- Embedding of `filters.BlurFilter`: a 5×5 uniform kernel, each weight
`1/25` (`np.ones((5,5))/25`). -/
def blurFilter : VConvolutionFilter :=
  ⟨List.replicate 5 (List.replicate 5 (1 / 25 : ℚ))⟩

/-- Embedding of `filters.EmbossFilter` (kernel from its constructor). -/
def embossFilter : VConvolutionFilter :=
  ⟨[[-2, -1, 0], [-1, 1, 1], [0, 1, 2]]⟩

/-- Sum of all kernel weights. -/
def kernelSum (kernel : List (List ℚ)) : ℚ :=
  (kernel.map List.sum).sum

/- ## managers.py: CaptureManager -/

/-- A decoded frame, abstract (its pixel contents never matter to the
manager's control flow). -/
abbrev Frame : Type := ℕ

/-- A value returned by `capture.get(cv2.CAP_PROP_FPS)`: a float that may
be NaN; `Option FloatV` further models a missing (`None`) value, which the
Python code also tests for. -/
inductive FloatV where
  | nan
  | val (q : ℚ)
deriving DecidableEq, Repr

/-- The test `fps == 0 or fps is None or np.isnan(fps)` from
`CaptureManager._writeVideoFrame`. -/
def fpsInvalid : Option FloatV → Bool
  | Option.none => true
  | some FloatV.nan => true
  | some (FloatV.val q) => q == 0

/-- The fourcc code `cv2.VideoWriter_fourcc(*'XVID')`, the default
encoding in `startWritingVideo`:
`ord 'X' + ord 'V' * 256 + ord 'I' * 65536 + ord 'D' * 16777216`. -/
def defaultFourcc : ℕ := 88 + 86 * 256 + 73 * 65536 + 68 * 16777216

/-- State of a `CaptureManager`, mirroring the attributes set in
`CaptureManager.__init__`.  The `_capture` object itself is external; the
state keeps only whether one is attached (`hasCapture`), and the video
writer handle is represented by the frame rate it was constructed with
(`videoWriter = some fps`). -/
structure CMState where
  hasCapture : Bool
  enteredFrame : Bool
  frame : Option Frame
  imageFilename : Option String
  videoFilename : Option String
  videoEncoding : Option ℕ
  videoWriter : Option ℚ
  startTime : Option ℚ
  framesElapsed : ℕ
  fpsEstimate : Option ℚ
deriving DecidableEq, Repr

/-- The state built by `CaptureManager.__init__`. -/
def initState (hasCapture : Bool) : CMState :=
  { hasCapture := hasCapture
    enteredFrame := false
    frame := Option.none
    imageFilename := Option.none
    videoFilename := Option.none
    videoEncoding := Option.none
    videoWriter := Option.none
    startTime := Option.none
    framesElapsed := 0
    fpsEstimate := Option.none }

/-- The `isWritingImage` property. -/
def CMState.isWritingImage (s : CMState) : Bool := s.imageFilename.isSome

/-- The `isWritingVideo` property. -/
def CMState.isWritingVideo (s : CMState) : Bool := s.videoFilename.isSome

/-- Externally visible effects of a manager step, in program order:
writes through `cv2.imwrite`, construction of a `cv2.VideoWriter` (with
the frame rate passed to it), frame writes through the writer, and the
writer's release. -/
inductive Effect where
  | imageWritten (filename : String)
  | writerCreated (fps : ℚ)
  | frameWritten
  | writerReleased
deriving DecidableEq, Repr

/-- Whether an effect is a video writer construction. -/
def Effect.isCreated : Effect → Bool
  | Effect.writerCreated _ => true
  | _ => false

/-- Whether an effect is a video writer release. -/
def Effect.isReleased : Effect → Bool
  | Effect.writerReleased => true
  | _ => false

/-- Embedding of `CaptureManager.enterFrame`.  The assertion
`assert not self._enteredFrame` is modelled by returning `Option.none`
(the fatal contract violation); otherwise, when a capture object is
attached, `_enteredFrame` becomes the result of `capture.grab()`,
supplied here as `grabOk`. -/
def enterFrame (grabOk : Bool) (s : CMState) : Option CMState :=
  if s.enteredFrame then Option.none
  else if s.hasCapture then some { s with enteredFrame := grabOk }
  else some s

/-- Embedding of the `frame` property's read during `exitFrame`: when a
frame cycle has been entered and no frame is cached, the capture source
is asked to retrieve/decode; `retrieved` is that result (`Option.none`
when retrieval fails). -/
def resolveFrame (retrieved : Option Frame) (s : CMState) : Option Frame :=
  if s.enteredFrame ∧ s.frame.isNone then retrieved else s.frame

/-- The FPS-estimation step at the top of `exitFrame`: the first processed
frame only starts the timer; later frames recompute the estimate when the
elapsed wall time is strictly positive. -/
def updateFps (now : ℚ) (s : CMState) : CMState :=
  if s.framesElapsed = 0 then { s with startTime := some now }
  else if 0 < now - s.startTime.getD 0 then
    { s with fpsEstimate := some ((s.framesElapsed : ℚ) / (now - s.startTime.getD 0)) }
  else s

/-- The numeric value of a valid capture-reported rate (only used on the
branch where `fpsInvalid` is false, so the fallback 0 is unreachable). -/
def capFpsValue : Option FloatV → ℚ
  | some (FloatV.val q) => q
  | _ => 0

/-- Embedding of `CaptureManager._writeVideoFrame`: nothing happens unless
video writing is active; a missing writer is constructed lazily, deferring
(and skipping this frame's write) while the capture-reported rate is
invalid and fewer than 20 frames have been observed, then falling back to
the running estimate or to `30.0`; once a writer exists the frame is
written through it. -/
def writeVideoFrame (capFps : Option FloatV) (s : CMState) : CMState × List Effect :=
  if ¬ s.isWritingVideo then (s, [])
  else if s.videoWriter.isNone then
    if fpsInvalid capFps then
      if s.framesElapsed < 20 then (s, [])
      else
        ({ s with videoWriter := some (s.fpsEstimate.getD 30) },
         [Effect.writerCreated (s.fpsEstimate.getD 30), Effect.frameWritten])
    else
      ({ s with videoWriter := some (capFpsValue capFps) },
       [Effect.writerCreated (capFpsValue capFps), Effect.frameWritten])
  else (s, [Effect.frameWritten])

/-- Embedding of `CaptureManager.exitFrame`: resolve the frame (possibly
retrieving it); with no frame, reset the cycle flags and return; with a
frame, update the FPS accounting, show the preview (external, no state),
write a pending screenshot, delegate to `_writeVideoFrame`, and release
the cached frame. -/
def exitFrame (now : ℚ) (retrieved : Option Frame) (capFps : Option FloatV)
    (s : CMState) : CMState × List Effect :=
  match resolveFrame retrieved s with
  | Option.none => ({ s with enteredFrame := false, frame := Option.none }, [])
  | some f =>
    let s1 := updateFps now { s with frame := some f }
    let s2 := { s1 with framesElapsed := s1.framesElapsed + 1 }
    let imgStep : CMState × List Effect :=
      match s2.imageFilename with
      | some fn => ({ s2 with imageFilename := Option.none }, [Effect.imageWritten fn])
      | Option.none => (s2, [])
    let vidStep := writeVideoFrame capFps imgStep.1
    ({ vidStep.1 with frame := Option.none, enteredFrame := false },
     imgStep.2 ++ vidStep.2)

/-- Embedding of `CaptureManager.writeImage`. -/
def writeImage (filename : String) (s : CMState) : CMState :=
  { s with imageFilename := some filename }

/-- Embedding of `CaptureManager.startWritingVideo`. -/
def startWritingVideo (filename : String) (encoding : Option ℕ) (s : CMState) : CMState :=
  { s with videoFilename := some filename
           videoEncoding := some (encoding.getD defaultFourcc) }

/-- Embedding of `CaptureManager.stopWritingVideo`: clears the recording
state and releases the writer when one was created. -/
def stopWritingVideo (s : CMState) : CMState × List Effect :=
  ({ s with videoFilename := Option.none
            videoEncoding := Option.none
            videoWriter := Option.none },
   if s.videoWriter.isSome then [Effect.writerReleased] else [])

/-- One loop iteration of the application as it drives the manager:
`enterFrame` (with the grab succeeding) followed by `exitFrame`. -/
def frameCycle (now : ℚ) (capFps : Option FloatV) (retrieved : Option Frame)
    (s : CMState) : Option (CMState × List Effect) :=
  (enterFrame true s).map (exitFrame now retrieved capFps)

/-- Run one frame cycle per timestamp in `ts`, threading the state and
collecting each cycle's effect list; `Option.none` if any `enterFrame`
hits its assertion. -/
def processFrames (capFps : Option FloatV) (retrieved : Option Frame) :
    List ℚ → CMState → Option (CMState × List (List Effect))
  | [], s => some (s, [])
  | t :: ts, s => do
    let (s1, effs) ← frameCycle t capFps retrieved s
    let (s2, effss) ← processFrames capFps retrieved ts s1
    pure (s2, effs :: effss)

/- ## cameo.py -/

/-- One entry of `Cameo._filters`: either `None` or a `(name, filter)`
tuple whose second component is the `strokeEdges` function or a filter
object exposing `apply` (only the name participates in the behaviour
verified here; the pixel transforms live in `filters.py`). -/
inductive FilterEntry where
  | noFilter
  | namedFn (name : String)
  | namedObj (name : String)
deriving DecidableEq, Repr

/-- The 9-entry filter list built in `Cameo.__init__`. -/
def filtersList : List FilterEntry :=
  [FilterEntry.noFilter,
   FilterEntry.namedFn "stroke",
   FilterEntry.namedObj "portra",
   FilterEntry.namedObj "provia",
   FilterEntry.namedObj "velvia",
   FilterEntry.namedObj "cross",
   FilterEntry.namedObj "sharpen",
   FilterEntry.namedObj "blur",
   FilterEntry.namedObj "emboss"]

/-- The name-reporting logic in `Cameo.onKeypress` for the next-filter
key: `None` reports `"none"`, a tuple reports its first component (all
non-`None` entries in the list are tuples, so the class-name and `str`
fallbacks are unreachable for this list). -/
def filterEntryName : FilterEntry → String
  | FilterEntry.noFilter => "none"
  | FilterEntry.namedFn n => n
  | FilterEntry.namedObj n => n

/-- State owned by the `Cameo` application object. -/
structure CameoState where
  manager : CMState
  filterIndex : ℕ
  windowOpen : Bool
deriving DecidableEq, Repr

/-- The state built by `Cameo.__init__` (webcam attached, filter index 0)
after `run` has created the window. -/
def cameoInit : CameoState :=
  { manager := initState true, filterIndex := 0, windowOpen := true }

/-- Embedding of `Cameo.onKeypress`: SPACE (32) requests a screenshot,
TAB (9) toggles video recording, `f` (102) advances the filter index
cyclically, `q` (113) or ESC (27) destroys the window. -/
def onKeypress (keycode : ℕ) (c : CameoState) : CameoState × List Effect :=
  if keycode = 32 then
    ({ c with manager := writeImage "screenshot.png" c.manager }, [])
  else if keycode = 9 then
    if ¬ c.manager.isWritingVideo then
      ({ c with manager := startWritingVideo "screencast.avi" Option.none c.manager }, [])
    else
      let (m, effs) := stopWritingVideo c.manager
      ({ c with manager := m }, effs)
  else if keycode = 102 then
    ({ c with filterIndex := (c.filterIndex + 1) % filtersList.length }, [])
  else if keycode = 113 ∨ keycode = 27 then
    ({ c with windowOpen := false }, [])
  else (c, [])

/-- The reported name of the currently selected filter. -/
def currentFilterName (c : CameoState) : String :=
  filterEntryName (filtersList.getD c.filterIndex FilterEntry.noFilter)

/-- One press of the next-filter key. -/
def pressNextFilter (c : CameoState) : CameoState :=
  (onKeypress 102 c).1

/- ## Operation sequences over the CaptureManager -/

/-- A call the application can make on the manager's frame-cycle API,
with the external inputs each call consumes. -/
inductive CMOp where
  | enterOp (grabOk : Bool)
  | exitOp (now : ℚ) (retrieved : Option Frame) (capFps : Option FloatV)
deriving DecidableEq, Repr

/-- Run a sequence of frame-cycle calls; `Option.none` when an
`enterFrame` hits its contract assertion. -/
def runOps : List CMOp → CMState → Option CMState
  | [], s => some s
  | CMOp.enterOp g :: rest, s => (enterFrame g s).bind (runOps rest)
  | CMOp.exitOp t r c :: rest, s => runOps rest (exitFrame t r c s).1

/-- A calling pattern in which every `enterFrame` is paired with an
intervening `exitFrame`: scanning with a flag for "inside a frame cycle",
no `enterOp` occurs while the flag is set. -/
def noDoubleEnter : List CMOp → Bool → Bool
  | [], _ => true
  | CMOp.enterOp _ :: rest, entered => !entered && noDoubleEnter rest true
  | CMOp.exitOp _ _ _ :: rest, _ => noDoubleEnter rest false

/-- State reached right after the FPS-accounting step of `exitFrame` on a
cycle that entered a frame `f` at time `t`: the timer/estimate update
followed by the frame-counter increment (used to phrase unfolding lemmas
about `exitFrame`). -/
def afterFps (t : ℚ) (f : Frame) (s : CMState) : CMState :=
  { updateFps t { s with frame := some f } with
      framesElapsed := (updateFps t { s with frame := some f }).framesElapsed + 1 }

/- ## Theorems -/

/-- C4: composing a function with an absent function (either argument
position) yields that function itself (hence behaviorally identical to
it); composing two absent functions yields no function; and when both are
present the composite applies `g` first and `f` second, so at any `x` it
equals `f (g x)`. -/
theorem c4_composeFunctions (f g : ℚ → ℚ) (x : ℚ) :
    createCompositeFunc (some f) Option.none = some f
    ∧ createCompositeFunc Option.none (some f) = some f
    ∧ createCompositeFunc (Option.none : Option (ℚ → ℚ)) Option.none = Option.none
    ∧ ∃ fg, createCompositeFunc (some f) (some g) = some fg ∧ fg x = f (g x) := by
  exact ⟨rfl, rfl, rfl, fun y => f (g y), rfl, rfl⟩

/-- C5: with an absent lookup table, `applyLookupArray` leaves the
destination byte-for-byte unchanged; with a present table the result has
the destination's size and maps every element through the table from the
source, and aliasing the source and destination buffers gives the same
result as distinct ones. -/
theorem c5_applyLookupArray (table : ℕ → ℕ) (src dst : List ℕ)
    (hlen : src.length = dst.length) :
    applyLookupArray Option.none src dst = dst
    ∧ (applyLookupArray (some table) src dst).length = dst.length
    ∧ (∀ i, i < src.length →
        (applyLookupArray (some table) src dst).getD i 0 = table (src.getD i 0))
    ∧ applyLookupArray (some table) src src = applyLookupArray (some table) src dst := by
  refine ⟨rfl, by simpa [applyLookupArray] using hlen, ?_, rfl⟩
  intro i hi
  have hm : i < (src.map table).length := by simpa using hi
  rw [applyLookupArray, List.getD_eq_getElem _ _ hm, List.getD_eq_getElem _ _ hi,
    List.getElem_map]

/-- Witness for C5 at concrete buffers of equal length. -/
theorem c5_applyLookupArray_witness :
    applyLookupArray Option.none [5, 7] [9, 11] = [9, 11]
    ∧ (applyLookupArray (some Nat.succ) [5, 7] [9, 11]).getD 0 0 = 6
    ∧ applyLookupArray (some Nat.succ) [5, 7] [5, 7]
        = applyLookupArray (some Nat.succ) [5, 7] [9, 11] := by
  have h := c5_applyLookupArray Nat.succ [5, 7] [9, 11] rfl
  exact ⟨h.1, h.2.2.1 0 (by decide), h.2.2.2⟩

/-- C6: `createCurveFunc` yields no function for absent input or fewer
than two control points; for two or more points it yields an
interpolation object whose kind is cubic exactly when at least four
points are given (linear otherwise) and whose evaluation never errors,
at any input including ones outside the control-point range, because the
object is built with `bounds_error=False` and `fill_value="extrapolate"`. -/
theorem c6_createCurveFunc (pts : List (ℚ × ℚ)) :
    createCurveFunc Option.none = Option.none
    ∧ (pts.length < 2 → createCurveFunc (some pts) = Option.none)
    ∧ (2 ≤ pts.length → ∃ f, createCurveFunc (some pts) = some f
        ∧ (f.kind = InterpKind.cubic ↔ 4 ≤ pts.length)
        ∧ (f.kind = InterpKind.linear ↔ pts.length < 4)
        ∧ ∀ x : ℚ, (f.eval x).isOk = true) := by
  refine ⟨rfl, ?_, ?_⟩
  · intro hlt
    simp [createCurveFunc, hlt]
  · intro hge
    refine ⟨{ xs := pts.map Prod.fst, ys := pts.map Prod.snd,
              kind := if 4 ≤ pts.length then InterpKind.cubic else InterpKind.linear,
              boundsError := false, extrapolate := true }, ?_, ?_, ?_, ?_⟩
    · simp [createCurveFunc, Nat.not_lt.mpr hge]
    · by_cases h4 : 4 ≤ pts.length <;> simp [h4]
    · by_cases h4 : 4 ≤ pts.length <;> simp [h4] <;> omega
    · intro x
      simp [Interp1d.eval, Except.isOk, Except.toBool]

/-- Witness for C6: a four-point curve yields a cubic interpolator that
evaluates without error far outside the control-point range, and a
one-point list yields no function. -/
theorem c6_createCurveFunc_witness :
    (createCurveFunc (some [((0 : ℚ), (0 : ℚ)), (23, 20), (157, 173), (255, 255)])).map
        Interp1d.kind = some InterpKind.cubic
    ∧ (createCurveFunc (some [((0 : ℚ), (0 : ℚ)), (23, 20), (157, 173), (255, 255)])).map
        (fun f => (f.eval 999).isOk) = some true
    ∧ createCurveFunc (some [((0 : ℚ), (0 : ℚ))]) = Option.none := by
  have h := (c6_createCurveFunc [((0 : ℚ), (0 : ℚ)), (23, 20), (157, 173), (255, 255)]).2.2
    (by decide)
  obtain ⟨f, hf, hcub, hlin, hok⟩ := h
  have h1 := (c6_createCurveFunc [((0 : ℚ), (0 : ℚ))]).2.1 (by decide)
  refine ⟨?_, ?_, h1⟩
  · rw [hf]
    exact congrArg some (hcub.mpr (by decide))
  · rw [hf]
    exact congrArg some (hok 999)

/-- C7: the application's filter list has 9 entries with the no-op entry
at index 0; each press of the next-filter key advances the index by one
modulo the list length; after exactly 9 presses from the initial state
the index is 0 again and the reported filter name is `"none"`. -/
theorem c7_filter_cycle (m : CMState) (i : ℕ) (w : Bool) :
    filtersList.length = 9
    ∧ (pressNextFilter { manager := m, filterIndex := i, windowOpen := w }).filterIndex
        = (i + 1) % filtersList.length
    ∧ cameoInit.filterIndex = 0
    ∧ (pressNextFilter^[9] cameoInit).filterIndex = 0
    ∧ currentFilterName (pressNextFilter^[9] cameoInit) = "none" := by
  exact ⟨rfl, rfl, rfl, rfl, rfl⟩

/-- C8: the sharpen, box-blur and emboss kernels each sum to 1, and
applying any of the three filters to a uniform image of any size leaves
every (unclamped) output pixel equal to the input color; the output is an
image over the same index space, hence of the same size. -/
theorem c8_convolution_uniform (h w y x : ℕ) (c : ℚ) :
    kernelSum sharpenFilter.kernel = 1
    ∧ kernelSum blurFilter.kernel = 1
    ∧ kernelSum embossFilter.kernel = 1
    ∧ sharpenFilter.apply h w (fun _ _ => c) y x = c
    ∧ blurFilter.apply h w (fun _ _ => c) y x = c
    ∧ embossFilter.apply h w (fun _ _ => c) y x = c := by
  refine ⟨?_, ?_, ?_, ?_, ?_, ?_⟩
  · norm_num [kernelSum, sharpenFilter]
  · norm_num [kernelSum, blurFilter, List.replicate]
  · norm_num [kernelSum, embossFilter]
  all_goals
    simp [VConvolutionFilter.apply, convAt, sharpenFilter, blurFilter, embossFilter,
      List.range_succ, List.replicate]
    ring


/- ### Helper lemmas about the manager's step functions -/

/-- Both branches of `exitFrame` clear the entered-frame flag. -/
theorem exitFrame_enteredFrame (now : ℚ) (r : Option Frame) (c : Option FloatV)
    (s : CMState) : (exitFrame now r c s).1.enteredFrame = false := by
  unfold exitFrame
  cases resolveFrame r s <;> rfl

/-- `updateFps` does not change `hasCapture`. -/
theorem updateFps_hasCapture (t : ℚ) (s : CMState) :
    (updateFps t s).hasCapture = s.hasCapture := by
  unfold updateFps
  split
  · rfl
  · split <;> rfl

/-- `updateFps` does not change `enteredFrame`. -/
theorem updateFps_enteredFrame (t : ℚ) (s : CMState) :
    (updateFps t s).enteredFrame = s.enteredFrame := by
  unfold updateFps
  split
  · rfl
  · split <;> rfl

/-- `updateFps` does not change the cached frame. -/
theorem updateFps_frame (t : ℚ) (s : CMState) :
    (updateFps t s).frame = s.frame := by
  unfold updateFps
  split
  · rfl
  · split <;> rfl

/-- `updateFps` does not change the pending image filename. -/
theorem updateFps_imageFilename (t : ℚ) (s : CMState) :
    (updateFps t s).imageFilename = s.imageFilename := by
  unfold updateFps
  split
  · rfl
  · split <;> rfl

/-- `updateFps` does not change the pending video filename. -/
theorem updateFps_videoFilename (t : ℚ) (s : CMState) :
    (updateFps t s).videoFilename = s.videoFilename := by
  unfold updateFps
  split
  · rfl
  · split <;> rfl

/-- `updateFps` does not change the video encoding. -/
theorem updateFps_videoEncoding (t : ℚ) (s : CMState) :
    (updateFps t s).videoEncoding = s.videoEncoding := by
  unfold updateFps
  split
  · rfl
  · split <;> rfl

/-- `updateFps` does not change the video writer. -/
theorem updateFps_videoWriter (t : ℚ) (s : CMState) :
    (updateFps t s).videoWriter = s.videoWriter := by
  unfold updateFps
  split
  · rfl
  · split <;> rfl

/-- `updateFps` does not change the frame counter. -/
theorem updateFps_framesElapsed (t : ℚ) (s : CMState) :
    (updateFps t s).framesElapsed = s.framesElapsed := by
  unfold updateFps
  split
  · rfl
  · split <;> rfl

/-- The timer after `updateFps`: started on the first frame, untouched
afterwards. -/
theorem updateFps_startTime (t : ℚ) (s : CMState) :
    (updateFps t s).startTime
      = if s.framesElapsed = 0 then some t else s.startTime := by
  unfold updateFps
  split
  · simp_all
  · split <;> simp_all

/-- The estimate after `updateFps`: recomputed exactly when this is not
the first frame and the elapsed time is strictly positive. -/
theorem updateFps_fpsEstimate (t : ℚ) (s : CMState) :
    (updateFps t s).fpsEstimate
      = if s.framesElapsed ≠ 0 ∧ 0 < t - s.startTime.getD 0 then
          some ((s.framesElapsed : ℚ) / (t - s.startTime.getD 0))
        else s.fpsEstimate := by
  unfold updateFps
  split
  · simp_all
  · split
    · simp_all
    · rename_i h1 h2
      simp_all
      rw [if_neg (by linarith)]

theorem exitFrame_frame_eq (t : ℚ) (c : Option FloatV) (f : Frame) (s : CMState)
    (hent : s.enteredFrame = true) (hfr : s.frame = Option.none)
    (him : s.imageFilename = Option.none) :
    exitFrame t (some f) c s
      = ({ (writeVideoFrame c (afterFps t f s)).1 with
            frame := Option.none, enteredFrame := false },
         (writeVideoFrame c (afterFps t f s)).2) := by
  have hres : resolveFrame (some f) s = some f := by
    simp [resolveFrame, hent, hfr]
  unfold exitFrame
  rw [hres]
  dsimp only
  rw [updateFps_imageFilename]
  dsimp only
  rw [him]
  simp [afterFps, updateFps_imageFilename, him]

theorem writeVideoFrame_preserves (c : Option FloatV) (s : CMState) :
    (writeVideoFrame c s).1.hasCapture = s.hasCapture
    ∧ (writeVideoFrame c s).1.enteredFrame = s.enteredFrame
    ∧ (writeVideoFrame c s).1.frame = s.frame
    ∧ (writeVideoFrame c s).1.imageFilename = s.imageFilename
    ∧ (writeVideoFrame c s).1.videoFilename = s.videoFilename
    ∧ (writeVideoFrame c s).1.videoEncoding = s.videoEncoding
    ∧ (writeVideoFrame c s).1.startTime = s.startTime
    ∧ (writeVideoFrame c s).1.framesElapsed = s.framesElapsed
    ∧ (writeVideoFrame c s).1.fpsEstimate = s.fpsEstimate := by
  unfold writeVideoFrame
  split
  · exact ⟨rfl, rfl, rfl, rfl, rfl, rfl, rfl, rfl, rfl⟩
  · split
    · split
      · split
        · exact ⟨rfl, rfl, rfl, rfl, rfl, rfl, rfl, rfl, rfl⟩
        · exact ⟨rfl, rfl, rfl, rfl, rfl, rfl, rfl, rfl, rfl⟩
      · exact ⟨rfl, rfl, rfl, rfl, rfl, rfl, rfl, rfl, rfl⟩
    · exact ⟨rfl, rfl, rfl, rfl, rfl, rfl, rfl, rfl, rfl⟩

theorem writeVideoFrame_not_writing (c : Option FloatV) (s : CMState)
    (h : s.videoFilename = Option.none) : writeVideoFrame c s = (s, []) := by
  unfold writeVideoFrame
  simp [CMState.isWritingVideo, h]

theorem writeVideoFrame_defer (c : Option FloatV) (s : CMState) (fn : String)
    (hfn : s.videoFilename = some fn) (hw : s.videoWriter = Option.none)
    (hc : fpsInvalid c = true) (hlt : s.framesElapsed < 20) :
    writeVideoFrame c s = (s, []) := by
  unfold writeVideoFrame
  simp [CMState.isWritingVideo, hfn, hw, hc, hlt]

theorem writeVideoFrame_create (c : Option FloatV) (s : CMState) (fn : String)
    (hfn : s.videoFilename = some fn) (hw : s.videoWriter = Option.none)
    (hc : fpsInvalid c = true) (hge : ¬ s.framesElapsed < 20) :
    writeVideoFrame c s
      = ({ s with videoWriter := some (s.fpsEstimate.getD 30) },
         [Effect.writerCreated (s.fpsEstimate.getD 30), Effect.frameWritten]) := by
  unfold writeVideoFrame
  simp [CMState.isWritingVideo, hfn, hw, hc, hge]

theorem writeVideoFrame_written (c : Option FloatV) (s : CMState) (fn : String)
    (fv : ℚ) (hfn : s.videoFilename = some fn) (hw : s.videoWriter = some fv) :
    writeVideoFrame c s = (s, [Effect.frameWritten]) := by
  unfold writeVideoFrame
  simp [CMState.isWritingVideo, hfn, hw]

theorem afterFps_fields (t : ℚ) (f : Frame) (s : CMState) :
    (afterFps t f s).hasCapture = s.hasCapture
    ∧ (afterFps t f s).enteredFrame = s.enteredFrame
    ∧ (afterFps t f s).frame = some f
    ∧ (afterFps t f s).imageFilename = s.imageFilename
    ∧ (afterFps t f s).videoFilename = s.videoFilename
    ∧ (afterFps t f s).videoEncoding = s.videoEncoding
    ∧ (afterFps t f s).videoWriter = s.videoWriter
    ∧ (afterFps t f s).framesElapsed = s.framesElapsed + 1
    ∧ (afterFps t f s).startTime = (if s.framesElapsed = 0 then some t else s.startTime)
    ∧ (afterFps t f s).fpsEstimate
        = (if s.framesElapsed ≠ 0 ∧ 0 < t - s.startTime.getD 0 then
             some ((s.framesElapsed : ℚ) / (t - s.startTime.getD 0))
           else s.fpsEstimate) := by
  unfold afterFps
  refine ⟨?_, ?_, ?_, ?_, ?_, ?_, ?_, ?_, ?_, ?_⟩ <;>
    simp [updateFps_hasCapture, updateFps_enteredFrame, updateFps_frame,
      updateFps_imageFilename, updateFps_videoFilename, updateFps_videoEncoding,
      updateFps_videoWriter, updateFps_framesElapsed, updateFps_startTime,
      updateFps_fpsEstimate]

theorem frameCycle_eq (t : ℚ) (c : Option FloatV) (f : Frame) (s : CMState)
    (hent : s.enteredFrame = false) (_hfr : s.frame = Option.none)
    (hcap : s.hasCapture = true) :
    frameCycle t c (some f) s
      = some (exitFrame t (some f) c { s with enteredFrame := true }) := by
  unfold frameCycle enterFrame
  rw [hent, hcap]
  simp

theorem frameCycle_norec (t : ℚ) (c : Option FloatV) (f : Frame) (s : CMState)
    (hent : s.enteredFrame = false) (hfr : s.frame = Option.none)
    (hcap : s.hasCapture = true) (him : s.imageFilename = Option.none)
    (hvf : s.videoFilename = Option.none) :
    frameCycle t c (some f) s
      = some ({ afterFps t f { s with enteredFrame := true } with
                  frame := Option.none, enteredFrame := false }, []) := by
  rw [frameCycle_eq t c f s hent hfr hcap]
  rw [exitFrame_frame_eq t c f { s with enteredFrame := true } rfl hfr him]
  rw [writeVideoFrame_not_writing]
  exact (afterFps_fields t f { s with enteredFrame := true }).2.2.2.2.1.trans hvf

theorem frameCycle_defer (t : ℚ) (c : Option FloatV) (f : Frame) (fn : String)
    (s : CMState)
    (hent : s.enteredFrame = false) (hfr : s.frame = Option.none)
    (hcap : s.hasCapture = true) (him : s.imageFilename = Option.none)
    (hvf : s.videoFilename = some fn) (hw : s.videoWriter = Option.none)
    (hc : fpsInvalid c = true) (hk : s.framesElapsed + 1 < 20) :
    frameCycle t c (some f) s
      = some ({ afterFps t f { s with enteredFrame := true } with
                  frame := Option.none, enteredFrame := false }, []) := by
  rw [frameCycle_eq t c f s hent hfr hcap]
  rw [exitFrame_frame_eq t c f { s with enteredFrame := true } rfl hfr him]
  rw [writeVideoFrame_defer c _ fn
    ((afterFps_fields t f { s with enteredFrame := true }).2.2.2.2.1.trans hvf)
    ((afterFps_fields t f { s with enteredFrame := true }).2.2.2.2.2.2.1.trans hw)
    hc
    (by rw [(afterFps_fields t f { s with enteredFrame := true }).2.2.2.2.2.2.2.1]; exact hk)]

theorem frameCycle_create (t : ℚ) (c : Option FloatV) (f : Frame) (fn : String)
    (s : CMState)
    (hent : s.enteredFrame = false) (hfr : s.frame = Option.none)
    (hcap : s.hasCapture = true) (him : s.imageFilename = Option.none)
    (hvf : s.videoFilename = some fn) (hw : s.videoWriter = Option.none)
    (hc : fpsInvalid c = true) (hk : ¬ s.framesElapsed + 1 < 20) :
    frameCycle t c (some f) s
      = some ({ (afterFps t f { s with enteredFrame := true }) with
                  videoWriter :=
                    some ((afterFps t f { s with enteredFrame := true }).fpsEstimate.getD 30),
                  frame := Option.none, enteredFrame := false },
              [Effect.writerCreated
                 ((afterFps t f { s with enteredFrame := true }).fpsEstimate.getD 30),
               Effect.frameWritten]) := by
  rw [frameCycle_eq t c f s hent hfr hcap]
  rw [exitFrame_frame_eq t c f { s with enteredFrame := true } rfl hfr him]
  rw [writeVideoFrame_create c _ fn
    ((afterFps_fields t f { s with enteredFrame := true }).2.2.2.2.1.trans hvf)
    ((afterFps_fields t f { s with enteredFrame := true }).2.2.2.2.2.2.1.trans hw)
    hc
    (by rw [(afterFps_fields t f { s with enteredFrame := true }).2.2.2.2.2.2.2.1]; exact hk)]

theorem frameCycle_written (t : ℚ) (c : Option FloatV) (f : Frame) (fn : String)
    (fv : ℚ) (s : CMState)
    (hent : s.enteredFrame = false) (hfr : s.frame = Option.none)
    (hcap : s.hasCapture = true) (him : s.imageFilename = Option.none)
    (hvf : s.videoFilename = some fn) (hw : s.videoWriter = some fv) :
    frameCycle t c (some f) s
      = some ({ afterFps t f { s with enteredFrame := true } with
                  frame := Option.none, enteredFrame := false },
              [Effect.frameWritten]) := by
  rw [frameCycle_eq t c f s hent hfr hcap]
  rw [exitFrame_frame_eq t c f { s with enteredFrame := true } rfl hfr him]
  rw [writeVideoFrame_written c _ fn fv
    ((afterFps_fields t f { s with enteredFrame := true }).2.2.2.2.1.trans hvf)
    ((afterFps_fields t f { s with enteredFrame := true }).2.2.2.2.2.2.1.trans hw)]

theorem processFrames_nil (c : Option FloatV) (r : Option Frame) (s : CMState) :
    processFrames c r [] s = some (s, []) := rfl

theorem processFrames_cons_of_cycle (c : Option FloatV) (r : Option Frame) (t : ℚ)
    (ts : List ℚ) (s s1 : CMState) (effs : List Effect)
    (h : frameCycle t c r s = some (s1, effs)) :
    processFrames c r (t :: ts) s
      = (processFrames c r ts s1).map (fun q => (q.1, effs :: q.2)) := by
  cases hrec : processFrames c r ts s1 with
  | none => simp [processFrames, h, hrec, Option.bind]
  | some q => simp [processFrames, h, hrec, Option.bind]

theorem processFrames_defer (c : Option FloatV) (f : Frame) (fn : String)
    (hc : fpsInvalid c = true) (ts : List ℚ) :
    ∀ (s : CMState),
      s.enteredFrame = false → s.frame = Option.none → s.hasCapture = true →
      s.imageFilename = Option.none → s.videoFilename = some fn →
      s.videoWriter = Option.none → s.framesElapsed + ts.length < 20 →
      ∃ s2, processFrames c (some f) ts s = some (s2, List.replicate ts.length [])
        ∧ s2.enteredFrame = false ∧ s2.frame = Option.none ∧ s2.hasCapture = true
        ∧ s2.imageFilename = Option.none ∧ s2.videoFilename = some fn
        ∧ s2.videoWriter = Option.none
        ∧ s2.framesElapsed = s.framesElapsed + ts.length := by
  induction ts with
  | nil =>
    intro s h1 h2 h3 h4 h5 h6 _
    exact ⟨s, by simp [processFrames_nil], h1, h2, h3, h4, h5, h6, by simp⟩
  | cons t ts ih =>
    intro s h1 h2 h3 h4 h5 h6 hk
    have hcy := frameCycle_defer t c f fn s h1 h2 h3 h4 h5 h6 hc
      (by simp only [List.length_cons] at hk; omega)
    have hF := afterFps_fields t f { s with enteredFrame := true }
    obtain ⟨s2, hproc, g1, g2, g3, g4, g5, g6, g7⟩ := ih
      { afterFps t f { s with enteredFrame := true } with
          frame := Option.none, enteredFrame := false }
      rfl rfl (hF.1.trans h3) (hF.2.2.2.1.trans h4) (hF.2.2.2.2.1.trans h5)
      (hF.2.2.2.2.2.2.1.trans h6)
      (by
        have h8 := hF.2.2.2.2.2.2.2.1
        simp only [List.length_cons] at hk
        simp only [h8]
        omega)
    refine ⟨s2, ?_, g1, g2, g3, g4, g5, g6, ?_⟩
    · rw [processFrames_cons_of_cycle c (some f) t ts s _ [] hcy, hproc]
      simp [List.replicate_succ]
    · have h8 := hF.2.2.2.2.2.2.2.1
      simp only [List.length_cons]
      rw [g7]
      simp only [h8]
      omega

theorem processFrames_written (c : Option FloatV) (f : Frame) (fn : String)
    (fv : ℚ) (ts : List ℚ) :
    ∀ (s : CMState),
      s.enteredFrame = false → s.frame = Option.none → s.hasCapture = true →
      s.imageFilename = Option.none → s.videoFilename = some fn →
      s.videoWriter = some fv →
      ∃ s2, processFrames c (some f) ts s
          = some (s2, List.replicate ts.length [Effect.frameWritten])
        ∧ s2.enteredFrame = false ∧ s2.frame = Option.none ∧ s2.hasCapture = true
        ∧ s2.imageFilename = Option.none ∧ s2.videoFilename = some fn
        ∧ s2.videoWriter = some fv
        ∧ s2.fpsEstimate = (if ts.length = 0 then s.fpsEstimate else s2.fpsEstimate) := by
  induction ts with
  | nil =>
    intro s h1 h2 h3 h4 h5 h6
    exact ⟨s, by simp [processFrames_nil], h1, h2, h3, h4, h5, h6, by simp⟩
  | cons t ts ih =>
    intro s h1 h2 h3 h4 h5 h6
    have hcy := frameCycle_written t c f fn fv s h1 h2 h3 h4 h5 h6
    have hF := afterFps_fields t f { s with enteredFrame := true }
    obtain ⟨s2, hproc, g1, g2, g3, g4, g5, g6, g7⟩ := ih
      { afterFps t f { s with enteredFrame := true } with
          frame := Option.none, enteredFrame := false }
      rfl rfl (hF.1.trans h3) (hF.2.2.2.1.trans h4) (hF.2.2.2.2.1.trans h5)
      (hF.2.2.2.2.2.2.1.trans h6)
    refine ⟨s2, ?_, g1, g2, g3, g4, g5, g6, by simp⟩
    rw [processFrames_cons_of_cycle c (some f) t ts s _ [Effect.frameWritten] hcy, hproc]
    simp [List.replicate_succ]

theorem processFrames_fps (c : Option FloatV) (f : Frame) (ts : List ℚ) :
    ∀ (s : CMState) (t0 : ℚ),
      s.enteredFrame = false → s.frame = Option.none → s.hasCapture = true →
      s.imageFilename = Option.none → s.videoFilename = Option.none →
      s.framesElapsed ≠ 0 → s.startTime = some t0 →
      ∃ s2, processFrames c (some f) ts s = some (s2, List.replicate ts.length [])
        ∧ s2.enteredFrame = false ∧ s2.frame = Option.none ∧ s2.hasCapture = true
        ∧ s2.imageFilename = Option.none ∧ s2.videoFilename = Option.none
        ∧ s2.framesElapsed = s.framesElapsed + ts.length
        ∧ s2.startTime = some t0
        ∧ (ts = [] → s2.fpsEstimate = s.fpsEstimate)
        ∧ (ts ≠ [] → t0 < ts.getLastD 0 →
            s2.fpsEstimate
              = some (((s.framesElapsed : ℚ) + ts.length - 1) / (ts.getLastD 0 - t0))) := by
  induction ts with
  | nil =>
    intro s t0 h1 h2 h3 h4 h5 h6 h7
    exact ⟨s, by simp [processFrames_nil], h1, h2, h3, h4, h5, by simp, h7,
      fun _ => rfl, fun hne => absurd rfl hne⟩
  | cons t ts ih =>
    intro s t0 h1 h2 h3 h4 h5 h6 h7
    have hcy := frameCycle_norec t c f s h1 h2 h3 h4 h5
    have hF := afterFps_fields t f { s with enteredFrame := true }
    have hfe : ({ afterFps t f { s with enteredFrame := true } with
        frame := Option.none, enteredFrame := false } : CMState).framesElapsed
          = s.framesElapsed + 1 := hF.2.2.2.2.2.2.2.1
    have hst : ({ afterFps t f { s with enteredFrame := true } with
        frame := Option.none, enteredFrame := false } : CMState).startTime = some t0 := by
      have h9 := hF.2.2.2.2.2.2.2.2.1
      show (afterFps t f { s with enteredFrame := true }).startTime = some t0
      rw [h9, if_neg h6]
      exact h7
    have hestA : (afterFps t f { s with enteredFrame := true }).fpsEstimate
        = (if s.framesElapsed ≠ 0 ∧ 0 < t - t0 then
             some ((s.framesElapsed : ℚ) / (t - t0))
           else s.fpsEstimate) := by
      have h9 := hF.2.2.2.2.2.2.2.2.2
      rw [h9]
      show (if ({ s with enteredFrame := true } : CMState).framesElapsed ≠ 0
            ∧ 0 < t - ({ s with enteredFrame := true } : CMState).startTime.getD 0 then _ else _) = _
      rw [show ({ s with enteredFrame := true } : CMState).startTime = some t0 from h7]
      rfl
    obtain ⟨s2, hproc, g1, g2, g3, g4, g5, g6, g7, g8, g9⟩ := ih
      { afterFps t f { s with enteredFrame := true } with
          frame := Option.none, enteredFrame := false }
      t0 rfl rfl (hF.1.trans h3) (hF.2.2.2.1.trans h4) (hF.2.2.2.2.1.trans h5)
      (by rw [hfe]; omega) hst
    refine ⟨s2, ?_, g1, g2, g3, g4, g5, ?_, g7, by simp, ?_⟩
    · rw [processFrames_cons_of_cycle c (some f) t ts s _ [] hcy, hproc]
      simp [List.replicate_succ]
    · rw [g6, hfe]
      simp only [List.length_cons]
      omega
    · intro _ hlast
      cases ts with
      | nil =>
        have hz := g8 rfl
        rw [hz]
        show (afterFps t f { s with enteredFrame := true }).fpsEstimate = _
        rw [hestA]
        have hlast2 : t0 < t := by simpa using hlast
        rw [if_pos ⟨h6, by linarith⟩]
        have : ((t :: ([] : List ℚ)).getLastD 0) = t := by simp
        rw [this]
        congr 1
        simp only [List.length_singleton, List.length_cons, List.length_nil]
        push_cast
        ring
      | cons u us =>
        have hne2 : (u :: us) ≠ ([] : List ℚ) := by simp
        have hlast3 : ((t :: u :: us).getLastD (0 : ℚ)) = ((u :: us).getLastD 0) := by
          simp [List.getLastD]
        have hres := g9 hne2 (by rw [← hlast3]; exact hlast)
        rw [hres, hfe]
        rw [hlast3]
        congr 1
        simp only [List.length_singleton, List.length_cons, List.length_nil]
        push_cast
        ring

theorem processFrames_append (c : Option FloatV) (r : Option Frame) (l1 l2 : List ℚ) :
    ∀ s : CMState, processFrames c r (l1 ++ l2) s
      = (processFrames c r l1 s).bind (fun p =>
          (processFrames c r l2 p.1).map (fun q => (q.1, p.2 ++ q.2))) := by
  induction l1 with
  | nil =>
    intro s
    rw [List.nil_append, processFrames_nil]
    cases hrec : processFrames c r l2 s with
    | none => simp [hrec]
    | some q => simp [hrec]
  | cons t ts ih =>
    intro s
    rw [List.cons_append]
    cases hcy : frameCycle t c r s with
    | none => simp [processFrames, hcy, Option.bind]
    | some p =>
      obtain ⟨s1, effs⟩ := p
      rw [processFrames_cons_of_cycle c r t (ts ++ l2) s s1 effs hcy,
        processFrames_cons_of_cycle c r t ts s s1 effs hcy, ih s1]
      cases hr1 : processFrames c r ts s1 with
      | none => simp [hr1]
      | some q =>
        cases hr2 : processFrames c r l2 q.1 with
        | none => simp [hr1, hr2]
        | some q2 => simp [hr1, hr2]

theorem initState_fields (b : Bool) :
    (initState b).enteredFrame = false ∧ (initState b).frame = Option.none
    ∧ (initState b).hasCapture = b ∧ (initState b).imageFilename = Option.none
    ∧ (initState b).videoFilename = Option.none ∧ (initState b).videoWriter = Option.none
    ∧ (initState b).framesElapsed = 0 ∧ (initState b).startTime = Option.none
    ∧ (initState b).fpsEstimate = Option.none :=
  ⟨rfl, rfl, rfl, rfl, rfl, rfl, rfl, rfl, rfl⟩

/-- C3: starting from a fresh manager, on the first `exitFrame` with a
frame available only the timer is started (estimate stays absent,
counter becomes 1); after exactly N ≥ 2 such calls at times `ts` with the
N-th later than the first, the FPS estimate equals
`(N - 1) / (ts.getLastD 0 - ts.headD 0)` — frames elapsed over the wall
time from the first call to the N-th. -/
theorem c3_fps_estimate (ts : List ℚ) (f : Frame) (h2 : 2 ≤ ts.length)
    (hpos : ts.headD 0 < ts.getLastD 0) :
    (∀ t : ℚ, ∃ s1 e1,
        processFrames Option.none (some f) [t] (initState true) = some (s1, e1)
        ∧ s1.fpsEstimate = Option.none ∧ s1.startTime = some t ∧ s1.framesElapsed = 1)
    ∧ ∃ s effss, processFrames Option.none (some f) ts (initState true) = some (s, effss)
        ∧ s.framesElapsed = ts.length
        ∧ s.startTime = some (ts.headD 0)
        ∧ s.fpsEstimate = some (((ts.length : ℚ) - 1) / (ts.getLastD 0 - ts.headD 0)) := by
  constructor
  · intro t
    have hcy := frameCycle_norec t Option.none f (initState true) rfl rfl rfl rfl rfl
    refine ⟨{ afterFps t f { initState true with enteredFrame := true } with
        frame := Option.none, enteredFrame := false }, [[]], ?_, ?_, ?_, ?_⟩
    · rw [processFrames_cons_of_cycle Option.none (some f) t [] (initState true) _ [] hcy,
        processFrames_nil]
      rfl
    · have hF := afterFps_fields t f { initState true with enteredFrame := true }
      have h9 := hF.2.2.2.2.2.2.2.2.2
      show (afterFps t f { initState true with enteredFrame := true }).fpsEstimate = Option.none
      rw [h9]
      rfl
    · have hF := afterFps_fields t f { initState true with enteredFrame := true }
      have h9 := hF.2.2.2.2.2.2.2.2.1
      show (afterFps t f { initState true with enteredFrame := true }).startTime = some t
      rw [h9]
      rfl
    · have hF := afterFps_fields t f { initState true with enteredFrame := true }
      exact hF.2.2.2.2.2.2.2.1
  · obtain ⟨t1, rest, hts⟩ : ∃ t1 rest, ts = t1 :: rest := by
      cases ts with
      | nil => simp at h2
      | cons a l => exact ⟨a, l, rfl⟩
    subst hts
    have hrest : rest ≠ [] := by
      intro h
      subst h
      simp at h2
    have hcy := frameCycle_norec t1 Option.none f (initState true) rfl rfl rfl rfl rfl
    have hF := afterFps_fields t1 f { initState true with enteredFrame := true }
    have hfe1 : ({ afterFps t1 f { initState true with enteredFrame := true } with
        frame := Option.none, enteredFrame := false } : CMState).framesElapsed = 1 :=
      hF.2.2.2.2.2.2.2.1
    have hst1 : ({ afterFps t1 f { initState true with enteredFrame := true } with
        frame := Option.none, enteredFrame := false } : CMState).startTime = some t1 := by
      have h9 := hF.2.2.2.2.2.2.2.2.1
      show (afterFps t1 f { initState true with enteredFrame := true }).startTime = some t1
      rw [h9]
      rfl
    obtain ⟨s2, hproc, g1, g2, g3, g4, g5, g6, g7, g8, g9⟩ :=
      processFrames_fps Option.none f rest
        { afterFps t1 f { initState true with enteredFrame := true } with
            frame := Option.none, enteredFrame := false }
        t1 rfl rfl (hF.1.trans rfl) (hF.2.2.2.1.trans rfl) (hF.2.2.2.2.1.trans rfl)
        (by rw [hfe1]; omega) hst1
    have hlast : ((t1 :: rest).getLastD (0 : ℚ)) = rest.getLastD 0 := by
      cases rest with
      | nil => simp_all
      | cons u us => simp [List.getLastD]
    have hhead : ((t1 :: rest).headD (0 : ℚ)) = t1 := rfl
    refine ⟨s2, [] :: List.replicate rest.length [], ?_, ?_, ?_, ?_⟩
    · rw [processFrames_cons_of_cycle Option.none (some f) t1 rest (initState true) _ [] hcy,
        hproc]
      rfl
    · rw [g6, hfe1]
      simp [Nat.add_comm]
    · rw [g7, hhead]
    · rw [hhead, hlast]
      have hres := g9 hrest (by rw [← hlast]; exact hpos)
      rw [hres, hfe1]
      congr 1
      simp only [List.length_cons]
      push_cast
      ring

theorem getD_replicate_of_lt {α : Type} (a d : α) :
    ∀ (n i : ℕ), i < n → (List.replicate n a).getD i d = a
  | n + 1, 0, _ => rfl
  | n + 1, i + 1, h => getD_replicate_of_lt a d n i (by omega)

theorem flatten_replicate_single {α : Type} (a : α) (n : ℕ) :
    (List.replicate n [a]).flatten = List.replicate n a := by
  induction n with
  | zero => rfl
  | succ n ih => simp [List.replicate_succ, ih]

/-- C1: in a recording session whose capture source reports an invalid
frame rate, processing at least 25 frames then stopping: the first 19
cycles produce no writer construction and no frame write (deferral); the
20th cycle constructs the writer exactly once, with the running FPS
estimate as its rate and 30 only when no estimate exists; every later
cycle writes through the existing writer; over the whole session trace the
writer is constructed exactly once and `stopWritingVideo` releases it
exactly once. -/
theorem c1_writer_lazy (ts : List ℚ) (fn : String) (f : Frame) (capFps : Option FloatV)
    (hinv : fpsInvalid capFps = true) (hlen : 25 ≤ ts.length) :
    ∃ s2 effss,
      processFrames capFps (some f) ts (startWritingVideo fn Option.none (initState true))
        = some (s2, effss)
      ∧ effss.length = ts.length
      ∧ (∀ i, i < 19 → effss.getD i [] = [])
      ∧ (∃ fps s20 effss20,
          effss.getD 19 [] = [Effect.writerCreated fps, Effect.frameWritten]
          ∧ processFrames capFps (some f) (ts.take 20)
              (startWritingVideo fn Option.none (initState true)) = some (s20, effss20)
          ∧ fps = s20.fpsEstimate.getD 30)
      ∧ (∀ i, 20 ≤ i → i < ts.length → effss.getD i [] = [Effect.frameWritten])
      ∧ (effss.flatten ++ (stopWritingVideo s2).2).countP Effect.isCreated = 1
      ∧ (effss.flatten ++ (stopWritingVideo s2).2).countP Effect.isReleased = 1
      ∧ (stopWritingVideo s2).2 = [Effect.writerReleased] := by
  have hA : (ts.take 19).length = 19 := by
    rw [List.length_take]
    omega
  obtain ⟨sA, hprocA, a1, a2, a3, a4, a5, a6, a7⟩ :=
    processFrames_defer capFps f fn hinv (ts.take 19)
      (startWritingVideo fn Option.none (initState true))
      rfl rfl rfl rfl rfl rfl
      (by rw [hA]; show 0 + 19 < 20; omega)
  obtain ⟨t20, rest, hB⟩ : ∃ a l, ts.drop 19 = a :: l := by
    cases hd : ts.drop 19 with
    | nil =>
      exfalso
      have := List.length_drop 19 ts
      rw [hd] at this
      simp at this
      omega
    | cons a l => exact ⟨a, l, rfl⟩
  have hrestlen : rest.length + 20 = ts.length := by
    have h1 := List.length_drop 19 ts
    rw [hB] at h1
    simp at h1
    omega
  have ha7 : sA.framesElapsed = 19 := by
    rw [a7, hA]
    rfl
  have hcy := frameCycle_create t20 capFps f fn sA a1 a2 a3 a4 a5 a6 hinv
    (by rw [ha7]; omega)
  have hFA := afterFps_fields t20 f { sA with enteredFrame := true }
  obtain ⟨sC, hprocC, c1, c2, c3, c4, c5, c6, c7⟩ :=
    processFrames_written capFps f fn
      ((afterFps t20 f { sA with enteredFrame := true }).fpsEstimate.getD 30) rest
      { afterFps t20 f { sA with enteredFrame := true } with
          videoWriter :=
            some ((afterFps t20 f { sA with enteredFrame := true }).fpsEstimate.getD 30),
          frame := Option.none, enteredFrame := false }
      rfl rfl (hFA.1.trans a3) (hFA.2.2.2.1.trans a4) (hFA.2.2.2.2.1.trans a5) rfl
  have hsplit : ts = ts.take 19 ++ (t20 :: rest) := by
    rw [← hB, List.take_append_drop]
  have hmain : processFrames capFps (some f) ts
      (startWritingVideo fn Option.none (initState true))
      = some (sC, List.replicate 19 []
          ++ ([Effect.writerCreated
                ((afterFps t20 f { sA with enteredFrame := true }).fpsEstimate.getD 30),
              Effect.frameWritten]
             :: List.replicate rest.length [Effect.frameWritten])) := by
    conv_lhs => rw [hsplit]
    rw [processFrames_append, hprocA]
    rw [show ∀ (p : CMState × List (List Effect)) g, (some p).bind g = g p from fun p g => rfl]
    rw [processFrames_cons_of_cycle capFps (some f) t20 rest sA _ _ hcy, hprocC]
    simp [hA]
  have htake : ts.take 20 = ts.take 19 ++ [t20] := by
    have h1 : ts.take (19 + 1) = ts.take 19 ++ (ts.drop 19).take 1 := List.take_add ts 19 1
    rw [show (20 : ℕ) = 19 + 1 from rfl, h1, hB]
    rfl
  have hproc20 : processFrames capFps (some f) (ts.take 20)
      (startWritingVideo fn Option.none (initState true))
      = some ({ afterFps t20 f { sA with enteredFrame := true } with
                  videoWriter :=
                    some ((afterFps t20 f { sA with enteredFrame := true }).fpsEstimate.getD 30),
                  frame := Option.none, enteredFrame := false },
              List.replicate 19 []
                ++ [[Effect.writerCreated
                      ((afterFps t20 f { sA with enteredFrame := true }).fpsEstimate.getD 30),
                     Effect.frameWritten]]) := by
    rw [htake, processFrames_append, hprocA]
    rw [show ∀ (p : CMState × List (List Effect)) g, (some p).bind g = g p from fun p g => rfl]
    rw [processFrames_cons_of_cycle capFps (some f) t20 [] sA _ _ hcy, processFrames_nil]
    simp [hA]
  refine ⟨sC, _, hmain, ?_, ?_, ?_, ?_, ?_, ?_, ?_⟩
  · simp only [List.length_append, List.length_replicate, List.length_cons]
    omega
  · intro i hi
    rw [List.getD_append _ _ _ _ (by rw [List.length_replicate]; omega)]
    exact getD_replicate_of_lt [] [] 19 i hi
  · refine ⟨(afterFps t20 f { sA with enteredFrame := true }).fpsEstimate.getD 30,
      _, _, ?_, hproc20, rfl⟩
    rw [List.getD_append_right _ _ _ _ (by simp)]
    simp
  · intro i h20 hilen
    rw [List.getD_append_right _ _ _ _ (by rw [List.length_replicate]; omega)]
    rw [List.length_replicate]
    have hi19 : i - 19 = (i - 20) + 1 := by omega
    rw [hi19]
    show (List.replicate rest.length [Effect.frameWritten]).getD (i - 20) [] = _
    exact getD_replicate_of_lt _ _ _ _ (by omega)
  · rw [show (stopWritingVideo sC).2 = [Effect.writerReleased] from by
      simp [stopWritingVideo, c6]]
    simp [List.countP_append, List.countP_cons, flatten_replicate_single,
      List.countP_replicate, Effect.isCreated]
  · rw [show (stopWritingVideo sC).2 = [Effect.writerReleased] from by
      simp [stopWritingVideo, c6]]
    simp [List.countP_append, List.countP_cons, flatten_replicate_single,
      List.countP_replicate, Effect.isReleased]
  · simp [stopWritingVideo, c6]

theorem runOps_noDoubleEnter :
    ∀ (ops : List CMOp) (b : Bool) (s : CMState),
      noDoubleEnter ops b = true → (b = false → s.enteredFrame = false) →
      (runOps ops s).isSome = true
  | [], _, _, _, _ => rfl
  | CMOp.enterOp g :: rest, b, s, hnd, hb => by
    have hnd2 : (!b) = true ∧ noDoubleEnter rest true = true := by
      simpa [noDoubleEnter] using hnd
    have hbf : b = false := by
      cases b
      · rfl
      · simp at hnd2
    have hent : s.enteredFrame = false := hb hbf
    cases hcap : s.hasCapture with
    | true =>
      have h1 : runOps (CMOp.enterOp g :: rest) s
          = runOps rest { s with enteredFrame := g } := by
        simp [runOps, enterFrame, hent, hcap]
      rw [h1]
      exact runOps_noDoubleEnter rest true _ hnd2.2 (by simp)
    | false =>
      have h1 : runOps (CMOp.enterOp g :: rest) s = runOps rest s := by
        simp [runOps, enterFrame, hent, hcap]
      rw [h1]
      exact runOps_noDoubleEnter rest true _ hnd2.2 (by simp)
  | CMOp.exitOp t r c :: rest, b, s, hnd, _ => by
    have hnd2 : noDoubleEnter rest false = true := by
      simpa [noDoubleEnter] using hnd
    have h1 : runOps (CMOp.exitOp t r c :: rest) s
        = runOps rest (exitFrame t r c s).1 := rfl
    rw [h1]
    exact runOps_noDoubleEnter rest false _ hnd2
      (fun _ => exitFrame_enteredFrame t r c s)

/-- C2: calling `enterFrame` while the entered-frame flag is set hits the
documented contract assertion (modelled as `Option.none`), and for any
call sequence in which every `enterFrame` is paired with an intervening
`exitFrame` (no two enters without an exit between), no assertion failure
can occur from a quiescent start. -/
theorem c2_enterFrame_contract (s : CMState) (g : Bool) (ops : List CMOp)
    (hpair : noDoubleEnter ops false = true) :
    (s.enteredFrame = true → enterFrame g s = Option.none)
    ∧ (s.enteredFrame = false → (runOps ops s).isSome = true) := by
  constructor
  · intro h
    simp [enterFrame, h]
  · intro h
    exact runOps_noDoubleEnter ops false s hpair (fun _ => h)

theorem exitFrame_fpsEstimate (now : ℚ) (f : Frame) (c : Option FloatV) (s : CMState)
    (hent : s.enteredFrame = true) (hfr : s.frame = Option.none) :
    (exitFrame now (some f) c s).1.fpsEstimate
      = (updateFps now { s with frame := some f }).fpsEstimate := by
  have hres : resolveFrame (some f) s = some f := by
    simp [resolveFrame, hent, hfr]
  unfold exitFrame
  rw [hres]
  dsimp only
  cases him : (updateFps now { s with frame := some f }).imageFilename with
  | none =>
    show (writeVideoFrame c _).1.fpsEstimate = _
    rw [(writeVideoFrame_preserves c _).2.2.2.2.2.2.2.2]
  | some fn =>
    show (writeVideoFrame c _).1.fpsEstimate = _
    rw [(writeVideoFrame_preserves c _).2.2.2.2.2.2.2.2]

/-- C9: on any non-first `exitFrame` with a frame available, the FPS
estimate is recomputed exactly when the elapsed time since the first frame
is strictly positive — in which case the divisor is nonzero, so the
division is never a division by zero — and with non-positive (in
particular zero) elapsed time the previous estimate is retained
unchanged. -/
theorem c9_fps_guard (s : CMState) (now t0 : ℚ) (f : Frame) (capFps : Option FloatV)
    (k : ℕ) (hent : s.enteredFrame = true) (hfr : s.frame = Option.none)
    (hk : s.framesElapsed = k + 1) (ht : s.startTime = some t0) :
    (now - t0 ≤ 0 → (exitFrame now (some f) capFps s).1.fpsEstimate = s.fpsEstimate)
    ∧ (0 < now - t0 →
        (exitFrame now (some f) capFps s).1.fpsEstimate
          = some (((k : ℚ) + 1) / (now - t0))
        ∧ now - t0 ≠ 0) := by
  have hbase := exitFrame_fpsEstimate now f capFps s hent hfr
  constructor
  · intro hle
    rw [hbase, hk, ht, updateFps_fpsEstimate, if_neg]
    rintro ⟨-, hpos⟩
    simp only [Option.getD_some] at hpos
    linarith
  · intro hpos
    refine ⟨?_, by linarith⟩
    rw [hbase, hk, ht, updateFps_fpsEstimate, if_pos ⟨by simp, by simpa using hpos⟩]
    simp

/-- C10: when `exitFrame` is called and frame retrieval yields no frame,
it resets the entered-frame flag and the cached frame and nothing else —
frame counter, start time, FPS estimate, pending image and video
filenames, and the video writer are all unchanged, no effect is emitted,
and a subsequent `enterFrame` does not violate the enter/exit contract. -/
theorem c10_exitFrame_no_frame (s : CMState) (now : ℚ) (capFps : Option FloatV) (g : Bool)
    (hent : s.enteredFrame = true) (hfr : s.frame = Option.none) :
    exitFrame now Option.none capFps s
      = ({ s with enteredFrame := false, frame := Option.none }, [])
    ∧ (exitFrame now Option.none capFps s).1.framesElapsed = s.framesElapsed
    ∧ (exitFrame now Option.none capFps s).1.startTime = s.startTime
    ∧ (exitFrame now Option.none capFps s).1.fpsEstimate = s.fpsEstimate
    ∧ (exitFrame now Option.none capFps s).1.imageFilename = s.imageFilename
    ∧ (exitFrame now Option.none capFps s).1.videoFilename = s.videoFilename
    ∧ (exitFrame now Option.none capFps s).1.videoWriter = s.videoWriter
    ∧ (exitFrame now Option.none capFps s).1.enteredFrame = false
    ∧ (exitFrame now Option.none capFps s).1.frame = Option.none
    ∧ (enterFrame g (exitFrame now Option.none capFps s).1).isSome = true := by
  have hres : resolveFrame Option.none s = Option.none := by
    simp [resolveFrame, hent, hfr]
  have hmain : exitFrame now Option.none capFps s
      = ({ s with enteredFrame := false, frame := Option.none }, []) := by
    unfold exitFrame
    rw [hres]
  refine ⟨hmain, ?_, ?_, ?_, ?_, ?_, ?_, ?_, ?_, ?_⟩ <;> rw [hmain]
  all_goals
    simp [enterFrame]
  cases h : s.hasCapture <;> simp

/-- Witness for C1: a concrete 25-frame session at integer timestamps with
a missing reported rate. -/
theorem c1_witness :
    (processFrames Option.none (some 0)
        [(0 : ℚ), 1, 2, 3, 4, 5, 6, 7, 8, 9, 10, 11, 12, 13, 14, 15, 16, 17, 18, 19, 20, 21, 22, 23, 24]
        (startWritingVideo "screencast.avi" Option.none (initState true))).isSome = true
    ∧ ((processFrames Option.none (some 0)
        [(0 : ℚ), 1, 2, 3, 4, 5, 6, 7, 8, 9, 10, 11, 12, 13, 14, 15, 16, 17, 18, 19, 20, 21, 22, 23, 24]
        (startWritingVideo "screencast.avi" Option.none (initState true))).map
          (fun p => p.2.getD 0 [])) = some [] := by
  obtain ⟨s2, effss, hp, hl, hdefer, hcreate, hwr, hc1, hr1, hstop⟩ :=
    c1_writer_lazy [(0 : ℚ), 1, 2, 3, 4, 5, 6, 7, 8, 9, 10, 11, 12, 13, 14, 15, 16, 17, 18, 19, 20, 21, 22, 23, 24] "screencast.avi" 0 Option.none rfl
      (by simp)
  rw [hp]
  refine ⟨rfl, ?_⟩
  have h0 := hdefer 0 (by omega)
  simpa using h0

/-- Witness for C2: a doubly-entered state fails, and a concrete paired
sequence runs without assertion failure. -/
theorem c2_witness :
    enterFrame true { initState true with enteredFrame := true } = Option.none
    ∧ (runOps [CMOp.enterOp true, CMOp.exitOp 0 (some 0) Option.none, CMOp.enterOp true]
        (initState true)).isSome = true := by
  refine ⟨?_, ?_⟩
  · exact (c2_enterFrame_contract { initState true with enteredFrame := true } true [] rfl).1 rfl
  · exact (c2_enterFrame_contract (initState true) true
      [CMOp.enterOp true, CMOp.exitOp 0 (some 0) Option.none, CMOp.enterOp true]
      rfl).2 rfl

/-- Witness for C3: two frames at times 0 and 1 give estimate 1 fps. -/
theorem c3_witness :
    ((processFrames Option.none (some 0) [(0 : ℚ), 1] (initState true)).map
      (fun p => (p.1.framesElapsed, p.1.startTime, p.1.fpsEstimate)))
      = some (2, some 0, some 1) := by
  obtain ⟨-, s, effss, hp, hfe, hst, hest⟩ :=
    c3_fps_estimate [(0 : ℚ), 1] 0 (by norm_num) (by norm_num)
  rw [hp]
  simp [hfe, hst, hest]
  norm_num

/-- Witness for C9: one second of elapsed time after one frame gives
estimate 1 with a nonzero divisor. -/
theorem c9_witness :
    (exitFrame 1 (some 0) Option.none
      { initState true with
          enteredFrame := true
          framesElapsed := 1
          startTime := some 0 }).1.fpsEstimate = some 1
    ∧ (1 : ℚ) - 0 ≠ 0 := by
  have h := (c9_fps_guard
    { initState true with
        enteredFrame := true
        framesElapsed := 1
        startTime := some 0 }
    1 0 0 Option.none 0 rfl rfl rfl rfl).2 (by norm_num)
  refine ⟨?_, h.2⟩
  rw [h.1]
  norm_num

/-- Witness for C10: an entered state with failed retrieval resets only
the cycle flags and can enter a frame again. -/
theorem c10_witness :
    exitFrame 0 Option.none Option.none { initState true with enteredFrame := true }
      = ({ initState true with enteredFrame := false, frame := Option.none }, [])
    ∧ (enterFrame true
        (exitFrame 0 Option.none Option.none
          { initState true with enteredFrame := true }).1).isSome = true := by
  have h := c10_exitFrame_no_frame { initState true with enteredFrame := true }
    0 Option.none true rfl rfl
  exact ⟨h.1, h.2.2.2.2.2.2.2.2.2⟩
